import Mathlib

/-!
# The scull storage engine (src/ch4/seq_file/scull.c, src/ch3/2_read_write/scull.c)

A shallow embedding of `scull_trim`, `scull_open`, `scull_release`,
`scull_follow`, `scull_read` and `scull_write`.

Conventions of the embedding

* A `struct scull_qset *` chain is a `List scull_qset`: the `next` pointer of a
  node is the tail of the list, `NULL` is `[]`. A pointer to a node of the
  chain is the position of that node in the list.
* `void **data` is `Option (List (Option (List Nat)))`: `none` is `NULL`, the
  outer list is the slot array, a slot is `NULL` or a byte buffer.
* `int`, `long`, `size_t`, `loff_t` values are natural numbers and the
  arithmetic is exact: the theorems are about runs in which no C integer
  operation leaves the range of its type. The two places where the range
  matters are modelled on machine integers as well: the `int` address
  variables by `resolve_int`, the 64-bit test of `scull_read` by
  `scull_read64`.
* Behaviour that C leaves undefined (division by a zero `itemsize`, an access
  outside a slot array or outside a quantum buffer) is the result `none`.
* The environment of one call is explicit: the outcome of
  `mutex_lock_interruptible`, the outcome of the successive `kmalloc` calls,
  and the user memory behind `buf`.
-/

namespace Scull

/-- Value of `ENOMEM` in the Linux headers. -/
def ENOMEM : Int := 12

/-- Value of `EFAULT` in the Linux headers. -/
def EFAULT : Int := 14

/-- Value of `ERESTARTSYS` in the Linux headers. -/
def ERESTARTSYS : Int := 512

/-- Value of `O_ACCMODE` in the Linux headers. -/
def O_ACCMODE : Nat := 3

/-- Value of `O_WRONLY` in the Linux headers. -/
def O_WRONLY : Nat := 1

/-- Outcome of the successive `kmalloc` calls of one operation: call number `k`
(counted from 0) returns `NULL` (`none`) or fresh memory whose byte at offset
`i` initially is `junk i` (`some junk`). -/
abbrev Kmalloc := Nat → Option (Nat → Nat)

/-- The module parameters `scull_quantum` and `scull_qset` (scull.c lines 20-21). -/
structure Params where
  scull_quantum : Nat
  scull_qset : Nat
deriving DecidableEq, Repr

/-- Node `struct scull_qset` (scull.h lines 42-45); `next` is the rest of the list. -/
structure scull_qset where
  data : Option (List (Option (List Nat)))
deriving DecidableEq, Repr

/-- Device `struct scull_dev` (scull.h lines 47-54) without `lock` and `cdev`. -/
structure scull_dev where
  data : List scull_qset
  quantum : Nat
  qset : Nat
  size : Nat
deriving DecidableEq, Repr

/-- A node as `memset(qs, 0, sizeof(struct scull_qset))` leaves it. -/
def zeroed_qset : scull_qset := ⟨none⟩

/-- The loop `for (dptr = dev->data; dptr; dptr = next)` of `scull_trim`: for a
node with a slot array it reads `dptr->data[i]` for every `i < qset`, which is
undefined (`none`) when the array has fewer than `qset` entries. -/
def trim_loop (qset : Nat) : List scull_qset → Option Unit
  | [] => some ()
  | dptr :: next =>
    match dptr.data with
    | none => trim_loop qset next
    | some slots => if qset ≤ slots.length then trim_loop qset next else none

/-- Function `scull_trim` (scull.c lines 129-151): the device afterwards and the
return value. -/
def scull_trim (m : Params) (dev : scull_dev) : Option (scull_dev × Int) :=
  match trim_loop dev.qset dev.data with
  | none => none
  | some _ =>
    some ({ data := [], quantum := m.scull_quantum, qset := m.scull_qset, size := 0 }, 0)

/-- Function `scull_open` (scull.c lines 157-176); `lock` tells whether
`mutex_lock_interruptible` returned 0. -/
def scull_open (m : Params) (dev : scull_dev) (f_flags : Nat) (lock : Bool) :
    Option (scull_dev × Int) :=
  if f_flags &&& O_ACCMODE = O_WRONLY then
    if lock then
      match scull_trim m dev with
      | none => none
      | some r => some (r.1, 0)
    else some (dev, -ERESTARTSYS)
  else some (dev, 0)

/-- Function `scull_release` (scull.c lines 178-181). -/
def scull_release (dev : scull_dev) : scull_dev × Int := (dev, 0)

/-- What `scull_follow` leaves behind: the chain, the returned pointer (`none`
is `NULL`, `some p` the node at position `p`) and the number of `kmalloc`
calls made so far. -/
structure Followed where
  data : List scull_qset
  ret : Option Nat
  calls : Nat
deriving DecidableEq, Repr

/-- The loop `while (n--)` of `scull_follow` (scull.c lines 199-208), standing
at node `qs` whose successors are `next`, after `k` calls of `kmalloc`. The
result lists the chain from `qs` on and locates the returned node relative to
`qs`. -/
def follow_loop (km : Kmalloc) : scull_qset → List scull_qset → Nat → Nat → Followed
  | qs, next, 0, k => ⟨qs :: next, some 0, k⟩
  | qs, [], n + 1, k =>
    match km k with
    | none => ⟨[qs], none, k + 1⟩
    | some _ =>
      let r := follow_loop km zeroed_qset [] n (k + 1)
      ⟨qs :: r.data, r.ret.map (· + 1), r.calls⟩
  | qs, q :: next, n + 1, k =>
    let r := follow_loop km q next n k
    ⟨qs :: r.data, r.ret.map (· + 1), r.calls⟩

/-- Function `scull_follow` (scull.c lines 187-210) on the chain `dev->data`. -/
def scull_follow (km : Kmalloc) (data : List scull_qset) (n : Nat) : Followed :=
  match data with
  | [] =>
    match km 0 with
    | none => ⟨[], none, 1⟩
    | some _ => follow_loop km zeroed_qset [] n 1
  | qs :: next => follow_loop km qs next n 0

/-- Result of `scull_read`: the device, `*f_pos`, the return value and the bytes
that reached the user buffer. -/
structure ReadResult where
  dev : scull_dev
  f_pos : Nat
  retval : Int
  buf : List Nat
deriving DecidableEq, Repr

/-- Function `scull_read` (scull.c lines 216-259). `lock` tells whether
`mutex_lock_interruptible` returned 0; `ubuf` is the number of writable bytes
behind `buf`, so `copy_to_user` of `count` bytes delivers the first
`min count ubuf` of them and returns non-zero exactly when `ubuf < count`. -/
def scull_read (dev : scull_dev) (km : Kmalloc) (lock : Bool) (ubuf count f_pos : Nat) :
    Option ReadResult :=
  let quantum := dev.quantum
  let qset := dev.qset
  let itemsize := quantum * qset
  if !lock then some ⟨dev, f_pos, -ERESTARTSYS, []⟩
  else if f_pos ≥ dev.size then some ⟨dev, f_pos, 0, []⟩
  else
    let count := if f_pos + count > dev.size then dev.size - f_pos else count
    if itemsize = 0 then none
    else
      let item := f_pos / itemsize
      let rest := f_pos % itemsize
      let s_pos := rest / quantum
      let q_pos := rest % quantum
      let fr := scull_follow km dev.data item
      let dev1 : scull_dev := { dev with data := fr.data }
      match fr.ret with
      | none => some ⟨dev1, f_pos, 0, []⟩
      | some p =>
        match fr.data[p]? with
        | none => none
        | some dptr =>
          match dptr.data with
          | none => some ⟨dev1, f_pos, 0, []⟩
          | some slots =>
            match slots[s_pos]? with
            | none => none
            | some none => some ⟨dev1, f_pos, 0, []⟩
            | some (some q) =>
              let count := if count > quantum - q_pos then quantum - q_pos else count
              if q_pos + count > q.length then none
              else
                let src := (q.drop q_pos).take count
                if ubuf < count then some ⟨dev1, f_pos, -EFAULT, src.take ubuf⟩
                else some ⟨dev1, f_pos + count, count, src⟩

/-- Result of `scull_write`: the device, `*f_pos`, the return value and the
number of `kmalloc` calls the call made. -/
structure WriteResult where
  dev : scull_dev
  f_pos : Nat
  retval : Int
  calls : Nat
deriving DecidableEq, Repr

/-- Function `scull_write` (scull.c lines 261-313). `lock` tells whether
`mutex_lock_interruptible` returned 0; `buf` lists the readable bytes behind
the user pointer, so `copy_from_user` of `count` bytes stores the first
`min count buf.length` of them, zero-fills the remainder of the destination
(as `_copy_from_user` does) and returns non-zero exactly when
`buf.length < count`. -/
def scull_write (dev : scull_dev) (km : Kmalloc) (lock : Bool) (buf : List Nat)
    (count f_pos : Nat) : Option WriteResult :=
  let quantum := dev.quantum
  let qset := dev.qset
  let itemsize := quantum * qset
  if !lock then some ⟨dev, f_pos, -ERESTARTSYS, 0⟩
  else if itemsize = 0 then none
  else
    let item := f_pos / itemsize
    let rest := f_pos % itemsize
    let s_pos := rest / quantum
    let q_pos := rest % quantum
    let fr := scull_follow km dev.data item
    match fr.ret with
    | none => some ⟨{ dev with data := fr.data }, f_pos, -ENOMEM, fr.calls⟩
    | some p =>
      match fr.data[p]? with
      | none => none
      | some dptr =>
        let alloc1 : Option (List (Option (List Nat)) × Nat) :=
          match dptr.data with
          | some slots => some (slots, fr.calls)
          | none =>
            match km fr.calls with
            | none => none
            | some _ => some (List.replicate qset none, fr.calls + 1)
        match alloc1 with
        | none => some ⟨{ dev with data := fr.data }, f_pos, -ENOMEM, fr.calls + 1⟩
        | some (slots, k1) =>
          match slots[s_pos]? with
          | none => none
          | some slot =>
            let alloc2 : Option (List Nat × Nat) :=
              match slot with
              | some q => some (q, k1)
              | none =>
                match km k1 with
                | none => none
                | some junk => some ((List.range quantum).map junk, k1 + 1)
            match alloc2 with
            | none =>
              some ⟨{ dev with data := fr.data.set p ⟨some slots⟩ }, f_pos, -ENOMEM, k1 + 1⟩
            | some (q, k2) =>
              let count := if count > quantum - q_pos then quantum - q_pos else count
              if q_pos + count > q.length then none
              else
                let copied := buf.take count ++ List.replicate (count - buf.length) 0
                let q1 := q.take q_pos ++ copied ++ q.drop (q_pos + count)
                let data1 := fr.data.set p ⟨some (slots.set s_pos (some q1))⟩
                if buf.length < count then
                  some ⟨{ dev with data := data1 }, f_pos, -EFAULT, k2⟩
                else
                  let f_pos1 := f_pos + count
                  some ⟨{ dev with data := data1,
                                   size := if dev.size < f_pos1 then f_pos1 else dev.size },
                        f_pos1, count, k2⟩

/-- Kmalloc outcome in which every call succeeds and returns zero-filled junk. -/
def km_ok : Kmalloc := fun _ => some (fun _ => 0)

/-- Kmalloc outcome in which every call returns `NULL`. -/
def km_fail : Kmalloc := fun _ => none

/-- List item addressed by offset `f_pos` (`item` in scull.c lines 234 and 275). -/
def item (dev : scull_dev) (f_pos : Nat) : Nat := f_pos / (dev.quantum * dev.qset)

/-- Slot addressed by offset `f_pos` (`s_pos` in scull.c lines 236 and 277). -/
def s_pos (dev : scull_dev) (f_pos : Nat) : Nat :=
  f_pos % (dev.quantum * dev.qset) / dev.quantum

/-- Offset inside the quantum addressed by `f_pos` (`q_pos` in scull.c lines 237 and 278). -/
def q_pos (dev : scull_dev) (f_pos : Nat) : Nat :=
  f_pos % (dev.quantum * dev.qset) % dev.quantum

/-- Shape of one node: its slot array, when present, has `qset` entries and
each buffer in it has `quantum` bytes (what `kmalloc(qset * sizeof(char *))`
and `kmalloc(quantum)` in `scull_write` produce). -/
def qset_shaped (quantum qset : Nat) (d : scull_qset) : Bool :=
  match d.data with
  | none => true
  | some slots =>
    slots.length == qset &&
      slots.all (fun s => match s with
        | none => true
        | some q => q.length == quantum)

/-- Shape of a device: every node of the chain is shaped for the device's
current `quantum` and `qset`. -/
def shaped (dev : scull_dev) : Bool := dev.data.all (qset_shaped dev.quantum dev.qset)

/-- Example state: `quantum = 4`, `qset = 2`, one node whose slot 1 holds
`[0, 88, 89, 90]` and whose slot 0 is `NULL`, size 8. -/
def dev_xyz : scull_dev :=
  { data := [⟨some [none, some [0, 88, 89, 90]]⟩], quantum := 4, qset := 2, size := 8 }

/-- Example module parameters: the defaults `SCULL_QUANTUM` and `SCULL_QSET` of scull.h. -/
def params_default : Params := ⟨4000, 1000⟩

/-- The scenario of the specification on the empty device with `quantum = 4`
and `qset = 2`: `write(h, 0, "AB")`, then `write(h, 5, "XYZ")`, then
`read(h, 0, 8)`, each call with its own `kmalloc` outcome. -/
def scenario (km1 km2 km3 : Kmalloc) : Option (WriteResult × WriteResult × ReadResult) :=
  (scull_write ⟨[], 4, 2, 0⟩ km1 true [65, 66] 2 0).bind fun w1 =>
    (scull_write w1.dev km2 true [88, 89, 90] 3 5).bind fun w2 =>
      (scull_read w2.dev km3 true 8 8 0).map fun r => (w1, w2, r)

/-- Conversion of an integer value to `int` (32 bits, two's complement): the
value is reduced modulo 2^32 into the range of the type, as gcc does for the
assignment of a `long` to an `int`. -/
def to_int (x : Int) : Int := (x + 2 ^ 31) % 2 ^ 32 - 2 ^ 31

/-- Values of the `int` variables `item`, `rest`, `s_pos`, `q_pos` of
`scull_read` and `scull_write`. -/
structure Resolved where
  item : Int
  rest : Int
  s_pos : Int
  q_pos : Int
deriving DecidableEq, Repr

/-- The address computation of `scull_read` and `scull_write` on machine
integers (scull.c lines 219-220 and 234-237, lines 264-265 and 275-278):
`int itemsize = quantum * qset`, then `item = (long) *f_pos / itemsize`,
`rest = (long) *f_pos % itemsize`, `s_pos = rest / quantum`,
`q_pos = rest % quantum`, with `/` and `%` rounding toward zero and the `long`
results converted to `int`. The result is `none` where C leaves the behaviour
undefined: the product leaves the range of `int`, or a divisor is zero. -/
def resolve_int (quantum qset f_pos : Int) : Option Resolved :=
  if quantum * qset < -2 ^ 31 ∨ 2 ^ 31 ≤ quantum * qset then none
  else
    let itemsize := quantum * qset
    if itemsize = 0 then none
    else
      let item := to_int (f_pos.tdiv itemsize)
      let rest := to_int (f_pos.tmod itemsize)
      if quantum = 0 then none
      else some ⟨item, rest, rest.tdiv quantum, rest.tmod quantum⟩

/-- Function `scull_read` (scull.c lines 216-259) with the test of line 230,
`*f_pos + count > dev->size`, evaluated as the code evaluates it: `count` is a
`size_t` and `dev->size` an `unsigned long`, so the sum is taken modulo 2^64.
Everything else is as in `scull_read`. -/
def scull_read64 (dev : scull_dev) (km : Kmalloc) (lock : Bool) (ubuf count f_pos : Nat) :
    Option ReadResult :=
  let quantum := dev.quantum
  let qset := dev.qset
  let itemsize := quantum * qset
  if !lock then some ⟨dev, f_pos, -ERESTARTSYS, []⟩
  else if f_pos ≥ dev.size then some ⟨dev, f_pos, 0, []⟩
  else
    let count := if (f_pos + count) % 2 ^ 64 > dev.size then dev.size - f_pos else count
    if itemsize = 0 then none
    else
      let item := f_pos / itemsize
      let rest := f_pos % itemsize
      let s_pos := rest / quantum
      let q_pos := rest % quantum
      let fr := scull_follow km dev.data item
      let dev1 : scull_dev := { dev with data := fr.data }
      match fr.ret with
      | none => some ⟨dev1, f_pos, 0, []⟩
      | some p =>
        match fr.data[p]? with
        | none => none
        | some dptr =>
          match dptr.data with
          | none => some ⟨dev1, f_pos, 0, []⟩
          | some slots =>
            match slots[s_pos]? with
            | none => none
            | some none => some ⟨dev1, f_pos, 0, []⟩
            | some (some q) =>
              let count := if count > quantum - q_pos then quantum - q_pos else count
              if q_pos + count > q.length then none
              else
                let src := (q.drop q_pos).take count
                if ubuf < count then some ⟨dev1, f_pos, -EFAULT, src.take ubuf⟩
                else some ⟨dev1, f_pos + count, count, src⟩

theorem ite_gt_eq_min (c a : Nat) : (if c > a then a else c) = min c a := by
  split <;> omega

theorem ite_add_gt_eq_min (count f_pos size : Nat) (h : f_pos < size) :
    (if f_pos + count > size then size - f_pos else count) = min count (size - f_pos) := by
  split <;> omega

theorem trim_loop_of_all (a b : Nat) (data : List scull_qset)
    (h : data.all (qset_shaped a b) = true) : trim_loop b data = some () := by
  induction data with
  | nil => rfl
  | cons d next ih =>
    simp only [List.all_cons, Bool.and_eq_true] at h
    cases hd : d.data with
    | none => simp only [trim_loop, hd]; exact ih h.2
    | some slots =>
      have h1 := h.1
      simp only [qset_shaped, hd, Bool.and_eq_true, beq_iff_eq] at h1
      simp only [trim_loop, hd, h1.1, Nat.le_refl, if_true]
      exact ih h.2

theorem scull_trim_shaped (m : Params) (dev : scull_dev) (hw : shaped dev = true) :
    scull_trim m dev =
      some ({ data := [], quantum := m.scull_quantum, qset := m.scull_qset, size := 0 }, 0) := by
  unfold scull_trim
  rw [trim_loop_of_all dev.quantum dev.qset dev.data hw]

theorem scull_trim_result (m : Params) (dev : scull_dev) (r : scull_dev × Int)
    (h : scull_trim m dev = some r) :
    r = ({ data := [], quantum := m.scull_quantum, qset := m.scull_qset, size := 0 }, 0) := by
  unfold scull_trim at h
  split at h
  · cases h
  · cases h; rfl

/-- C6 (trim resets the device regardless of its prior state): for every device
state of the data model (any list whose slot arrays hold `qset` entries and
whose buffers hold `quantum` bytes, any size, any per-device `quantum`/`qset`),
`scull_trim` returns 0 and leaves `data` empty, `size = 0`,
`quantum = scull_quantum` and `qset = scull_qset`; on any state at all these are
the only values it can return; trimming the trimmed device returns the same
again; and on the trimmed device a read of `N > 0` bytes at any position
returns zero bytes. -/
theorem scull_trim_resets (m : Params) (dev : scull_dev) :
    (shaped dev = true →
      scull_trim m dev =
        some ({ data := [], quantum := m.scull_quantum, qset := m.scull_qset, size := 0 }, 0)) ∧
    (∀ r, scull_trim m dev = some r →
      r = ({ data := [], quantum := m.scull_quantum, qset := m.scull_qset, size := 0 }, 0)) ∧
    scull_trim m { data := [], quantum := m.scull_quantum, qset := m.scull_qset, size := 0 } =
      some ({ data := [], quantum := m.scull_quantum, qset := m.scull_qset, size := 0 }, 0) ∧
    (∀ (km : Kmalloc) (ubuf pos N : Nat), 0 < N →
      scull_read { data := [], quantum := m.scull_quantum, qset := m.scull_qset, size := 0 }
          km true ubuf N pos =
        some ⟨{ data := [], quantum := m.scull_quantum, qset := m.scull_qset, size := 0 },
          pos, 0, []⟩) := by
  refine ⟨scull_trim_shaped m dev, scull_trim_result m dev, rfl, ?_⟩
  intro km ubuf pos N _
  simp [scull_read]

/-- Witness of C6: trimming a device that holds data and whose `quantum` and
`qset` differ from the module parameters. -/
theorem scull_trim_resets_witness :
    scull_trim ⟨4000, 1000⟩
        { data := [⟨some [none, some [0, 88, 89, 90]]⟩, ⟨none⟩], quantum := 4, qset := 2,
          size := 8 } =
      some ({ data := [], quantum := 4000, qset := 1000, size := 0 }, 0) ∧
    scull_read { data := [], quantum := 4000, qset := 1000, size := 0 } km_ok true 8 8 3 =
      some ⟨{ data := [], quantum := 4000, qset := 1000, size := 0 }, 3, 0, []⟩ :=
  ⟨(scull_trim_resets ⟨4000, 1000⟩
      { data := [⟨some [none, some [0, 88, 89, 90]]⟩, ⟨none⟩], quantum := 4, qset := 2,
        size := 8 }).1 (by decide),
    (scull_trim_resets ⟨4000, 1000⟩
      { data := [⟨some [none, some [0, 88, 89, 90]]⟩, ⟨none⟩], quantum := 4, qset := 2,
        size := 8 }).2.2.2 km_ok 8 3 8 (by decide)⟩

/-- C7 (truncate-on-open only for write-only access): `scull_open` with access
mode `O_WRONLY` and the lock acquired leaves the device (of the data model)
exactly trimmed (empty data, size 0, `scull_quantum`, `scull_qset`) and
returns 0; `scull_open` with any other access mode returns 0 and leaves the
device as it was, whatever the lock would do; `scull_release` returns 0 and
leaves the device as it was. -/
theorem scull_open_release_frame (m : Params) (dev : scull_dev) (f_flags : Nat) :
    (f_flags &&& O_ACCMODE = O_WRONLY → shaped dev = true →
      scull_open m dev f_flags true =
        some ({ data := [], quantum := m.scull_quantum, qset := m.scull_qset, size := 0 }, 0)) ∧
    (f_flags &&& O_ACCMODE ≠ O_WRONLY →
      ∀ lock, scull_open m dev f_flags lock = some (dev, 0)) ∧
    scull_release dev = (dev, 0) := by
  refine ⟨?_, ?_, rfl⟩
  · intro hf hw
    simp only [scull_open, hf, if_true, scull_trim_shaped m dev hw]
  · intro hf lock
    simp only [scull_open, hf, if_false]

/-- Witness of C7: opening the example device write-only (`O_WRONLY`, flags 1),
read-only (flags 0) and read-write (flags 2). -/
theorem scull_open_release_frame_witness :
    scull_open params_default dev_xyz 1 true =
      some ({ data := [], quantum := 4000, qset := 1000, size := 0 }, 0) ∧
    (∀ lock, scull_open params_default dev_xyz 0 lock = some (dev_xyz, 0)) ∧
    (∀ lock, scull_open params_default dev_xyz 2 lock = some (dev_xyz, 0)) :=
  ⟨(scull_open_release_frame params_default dev_xyz 1).1 (by decide) (by decide),
    (scull_open_release_frame params_default dev_xyz 0).2.1 (by decide),
    (scull_open_release_frame params_default dev_xyz 2).2.1 (by decide)⟩

/-- Counterexample to C8 as stated: in the scenario, with every `kmalloc`
succeeding, the two writes return 2 and 3 and the final `read(h, 0, 8)`
returns 4 bytes, not 2. -/
theorem scenario_counterexample :
    (scenario km_ok km_ok km_ok).map
        (fun t => (t.1.retval, t.2.1.retval, t.2.2.retval, t.2.2.buf)) =
      some (2, 3, 4, [65, 66, 0, 0]) ∧ (4 : Int) ≠ 2 := by
  decide

/-- C8 amended (concrete scenario): on the empty device with `quantum = 4` and
`qset = 2`, when the allocations of the two writes succeed, `write(h, 0, "AB")`
returns 2 and leaves `size = 2`, `write(h, 5, "XYZ")` returns 3 and leaves
`size = 8`, and `read(h, 0, 8)` returns 4 bytes: `"AB"` followed by the two
bytes at offsets 2 and 3 of the same quantum buffer, which no write has set
(they are what `kmalloc` left there). -/
theorem scenario_result (km1 km2 km3 : Kmalloc) (h1 : ∀ k, (km1 k).isSome = true)
    (h2 : ∀ k, (km2 k).isSome = true) :
    ∃ w1 w2 r junk, scenario km1 km2 km3 = some (w1, w2, r) ∧ km1 2 = some junk ∧
      w1.retval = 2 ∧ w1.dev.size = 2 ∧ w2.retval = 3 ∧ w2.dev.size = 8 ∧
      r.retval = 4 ∧ r.buf = [65, 66, junk 2, junk 3] := by
  obtain ⟨a0, ha0⟩ := Option.isSome_iff_exists.mp (h1 0)
  obtain ⟨a1, ha1⟩ := Option.isSome_iff_exists.mp (h1 1)
  obtain ⟨a2, ha2⟩ := Option.isSome_iff_exists.mp (h1 2)
  obtain ⟨b0, hb0⟩ := Option.isSome_iff_exists.mp (h2 0)
  have hw1 : scull_write ⟨[], 4, 2, 0⟩ km1 true [65, 66] 2 0 = some
      ⟨⟨[⟨some [some [65, 66, a2 2, a2 3], none]⟩], 4, 2, 2⟩, 2, 2, 3⟩ := by
    simp [scull_write, scull_follow, follow_loop, zeroed_qset, ha0, ha1, ha2, List.range_succ]
  have hw2 : scull_write ⟨[⟨some [some [65, 66, a2 2, a2 3], none]⟩], 4, 2, 2⟩ km2 true
      [88, 89, 90] 3 5 = some
      ⟨⟨[⟨some [some [65, 66, a2 2, a2 3], some [b0 0, 88, 89, 90]]⟩], 4, 2, 8⟩, 8, 3, 1⟩ := by
    simp [scull_write, scull_follow, follow_loop, hb0, List.range_succ]
  have hr : scull_read ⟨[⟨some [some [65, 66, a2 2, a2 3], some [b0 0, 88, 89, 90]]⟩], 4, 2, 8⟩
      km3 true 8 8 0 = some
      ⟨⟨[⟨some [some [65, 66, a2 2, a2 3], some [b0 0, 88, 89, 90]]⟩], 4, 2, 8⟩, 4, 4,
        [65, 66, a2 2, a2 3]⟩ := by
    simp [scull_read, scull_follow, follow_loop]
  have hsc : scenario km1 km2 km3 = some
      (⟨⟨[⟨some [some [65, 66, a2 2, a2 3], none]⟩], 4, 2, 2⟩, 2, 2, 3⟩,
        ⟨⟨[⟨some [some [65, 66, a2 2, a2 3], some [b0 0, 88, 89, 90]]⟩], 4, 2, 8⟩, 8, 3, 1⟩,
        ⟨⟨[⟨some [some [65, 66, a2 2, a2 3], some [b0 0, 88, 89, 90]]⟩], 4, 2, 8⟩, 4, 4,
          [65, 66, a2 2, a2 3]⟩) := by
    simp only [scenario, hw1, Option.some_bind, hw2, hr, Option.map_some']
  exact ⟨_, _, _, a2, hsc, ha2, rfl, rfl, rfl, rfl, rfl, rfl⟩

/-- Witness of C8 amended: the scenario with every `kmalloc` succeeding and
returning zero-filled memory. -/
theorem scenario_result_witness :
    ∃ w1 w2 r junk, scenario km_ok km_ok km_fail = some (w1, w2, r) ∧ km_ok 2 = some junk ∧
      w1.retval = 2 ∧ w1.dev.size = 2 ∧ w2.retval = 3 ∧ w2.dev.size = 8 ∧
      r.retval = 4 ∧ r.buf = [65, 66, junk 2, junk 3] :=
  scenario_result km_ok km_ok km_fail (fun _ => rfl) (fun _ => rfl)

theorem to_int_of_lt (x : Nat) (h : x < 2 ^ 31) : to_int (x : Int) = x := by
  unfold to_int
  omega

/-- Exact decomposition of an offset (the arithmetic behind `item`, `s_pos`, `q_pos`). -/
theorem resolve_decompose (quantum qset o : Nat) (hq : 0 < quantum) (hs : 0 < qset) :
    o = o / (quantum * qset) * quantum * qset + o % (quantum * qset) / quantum * quantum
        + o % (quantum * qset) % quantum ∧
      o % (quantum * qset) / quantum < qset ∧
      o % (quantum * qset) % quantum < quantum ∧
      o % (quantum * qset) % quantum = o % quantum := by
  have h1 := Nat.div_add_mod o (quantum * qset)
  have h2 := Nat.div_add_mod (o % (quantum * qset)) quantum
  refine ⟨?_, ?_, Nat.mod_lt _ hq, Nat.mod_mul_right_mod _ _ _⟩
  · rw [Nat.mul_assoc, Nat.mul_comm (o / (quantum * qset)),
      Nat.mul_comm (o % (quantum * qset) / quantum)]
    omega
  · rw [Nat.div_lt_iff_lt_mul hq, Nat.mul_comm qset]
    exact Nat.mod_lt _ (Nat.mul_pos hq hs)

theorem resolve_int_in_range (quantum qset o : Nat) (hq : 0 < quantum) (hs : 0 < qset)
    (hprod : quantum * qset < 2 ^ 31) (hitem : o / (quantum * qset) < 2 ^ 31) :
    resolve_int quantum qset o =
      some ⟨(o / (quantum * qset) : Nat), (o % (quantum * qset) : Nat),
        (o % (quantum * qset) / quantum : Nat), (o % (quantum * qset) % quantum : Nat)⟩ := by
  have hpos : 0 < quantum * qset := Nat.mul_pos hq hs
  have hrest : o % (quantum * qset) < 2 ^ 31 := Nat.lt_trans (Nat.mod_lt _ hpos) hprod
  have hc : (quantum : Int) * (qset : Int) = ((quantum * qset : Nat) : Int) := by push_cast; rfl
  unfold resolve_int
  simp only [hc]
  rw [if_neg (by omega), if_neg (by omega), if_neg (by omega)]
  rw [← Int.ofNat_tdiv, ← Int.ofNat_tmod, to_int_of_lt _ hitem, to_int_of_lt _ hrest,
    ← Int.ofNat_tdiv, ← Int.ofNat_tmod]

/-- C11 (address resolution on the `int` variables of the code), failing input:
with the default `quantum = 4000` and `qset = 1000` (the product 4000000 is
within `int`), at offset `o = 2^32 * 4000000` the quotient `o / itemsize = 2^32`
does not fit the `int` variable `item`, which receives 0; the code computes
`item = 0`, `s_pos = 0`, `q_pos = 0`, and
`item*quantum*qset + s_pos*quantum + q_pos = 0` is not `o`. -/
theorem resolve_int_truncates :
    resolve_int 4000 1000 (2 ^ 32 * 4000000) = some ⟨0, 0, 0, 0⟩ ∧
      (2 ^ 32 * 4000000 : Int) ≠ 0 * 4000 * 1000 + 0 * 4000 + 0 := by
  decide

/-- Address resolution within range: for `quantum > 0`, `qset > 0` with
`quantum * qset` within `int` and an offset `o` whose quotient
`o / (quantum * qset)` is within `int`, the `int` variables of the code hold
`item = o / (quantum*qset)`, `rest = o % (quantum*qset)`, `s_pos = rest / quantum`,
`q_pos = rest % quantum`, and these satisfy
`o = item*quantum*qset + s_pos*quantum + q_pos`, `s_pos < qset`,
`q_pos < quantum` and `q_pos = o mod quantum`; they are the `item`, `s_pos`
and `q_pos` of the exact model. -/
theorem resolve_int_exact (dev : scull_dev) (o : Nat) (hq : 0 < dev.quantum)
    (hs : 0 < dev.qset) (hprod : dev.quantum * dev.qset < 2 ^ 31)
    (hitem : o / (dev.quantum * dev.qset) < 2 ^ 31) :
    resolve_int dev.quantum dev.qset o =
        some ⟨(item dev o : Nat), (o % (dev.quantum * dev.qset) : Nat), (s_pos dev o : Nat),
          (q_pos dev o : Nat)⟩ ∧
      o = item dev o * dev.quantum * dev.qset + s_pos dev o * dev.quantum + q_pos dev o ∧
      s_pos dev o < dev.qset ∧ q_pos dev o < dev.quantum ∧ q_pos dev o = o % dev.quantum :=
  ⟨resolve_int_in_range dev.quantum dev.qset o hq hs hprod hitem,
    resolve_decompose dev.quantum dev.qset o hq hs⟩

theorem scull_read_bounds {dev : scull_dev} {km : Kmalloc} {lock : Bool}
    {ubuf count f_pos : Nat} {r : ReadResult}
    (h : scull_read dev km lock ubuf count f_pos = some r) :
    (r.dev = dev ∨
      (f_pos < dev.size ∧
        r.dev = { dev with data := (scull_follow km dev.data (item dev f_pos)).data })) ∧
      r.retval ≤ (min count (dev.size - f_pos) : Nat) := by
  unfold scull_read at h
  simp only [item]
  simp only [ite_gt_eq_min] at h
  split at h
  · cases h; exact ⟨Or.inl rfl, by simp only [ERESTARTSYS]; omega⟩
  split at h
  · cases h; exact ⟨Or.inl rfl, by simp only; omega⟩
  rename_i hlock hpos
  have hpos1 : f_pos < dev.size := Nat.lt_of_not_le hpos
  rw [ite_add_gt_eq_min count f_pos dev.size hpos1] at h
  split at h
  · cases h
  split at h
  · cases h; exact ⟨Or.inr ⟨hpos1, rfl⟩, by simp only; omega⟩
  split at h
  · cases h
  split at h
  · cases h; exact ⟨Or.inr ⟨hpos1, rfl⟩, by simp only; omega⟩
  split at h
  · cases h
  · cases h; exact ⟨Or.inr ⟨hpos1, rfl⟩, by simp only; omega⟩
  split at h
  · cases h
  split at h
  · cases h; exact ⟨Or.inr ⟨hpos1, rfl⟩, by simp only [EFAULT]; omega⟩
  · cases h; exact ⟨Or.inr ⟨hpos1, rfl⟩, by simp only; omega⟩

theorem scull_read64_eq (dev : scull_dev) (km : Kmalloc) (lock : Bool) (ubuf count f_pos : Nat)
    (h : f_pos + count < 2 ^ 64) :
    scull_read64 dev km lock ubuf count f_pos = scull_read dev km lock ubuf count f_pos := by
  unfold scull_read64 scull_read
  rw [Nat.mod_eq_of_lt h]

/-- The end-of-data clamp within range: when `pos + count` does not reach 2^64,
the 64-bit test of line 230 agrees with the exact one, `scull_read64` is
`scull_read`, and whatever it returns is at most `min(count, size - pos)`. -/
theorem scull_read64_clamped (dev : scull_dev) (km : Kmalloc) (lock : Bool)
    (ubuf count pos : Nat) (r : ReadResult) (h : pos + count < 2 ^ 64)
    (hr : scull_read64 dev km lock ubuf count pos = some r) :
    scull_read dev km lock ubuf count pos = some r ∧
      r.retval ≤ (min count (dev.size - pos) : Nat) := by
  rw [scull_read64_eq dev km lock ubuf count pos h] at hr
  exact ⟨hr, (scull_read_bounds hr).2⟩

end Scull
